import Mathlib

/-!
Shallow embedding of the regime-derivation core of `src/dags/parkeervakken.py`
(functions `import_data`, `create_regimes`, `add_a_minute`, `remove_a_minute`,
`get_modes`, `days_from_row`, `parse_time`), together with theorems settling
the specification claims about it.

Times of day are modelled as minutes after midnight (`Nat`, `0 = 00:00`,
`1439 = 23:59`); Python `datetime.time` values are day-local, and
`datetime.combine`/`timedelta` arithmetic followed by `.time()` drops the
date, i.e. works modulo `1440` minutes.  Optional shapefile fields are
`Option String` / `Option Bool`; Python truthiness of such a field is
`none`/empty ↦ false.
-/

namespace Parkeervakken

/-- Python truthiness of an optional string field (`None` and `""` are falsy). -/
def truthyS : Option String → Bool
  | none => false
  | some s => !s.isEmpty

/-- Python truthiness of an optional boolean field (`None` is falsy). -/
def truthyB : Option Bool → Bool
  | none => false
  | some b => b

/-- Python `value or default` for an optional string field. -/
def orDefault (v : Option String) (d : String) : String :=
  match v with
  | none => d
  | some s => if s.isEmpty then d else s

/-- `WEEK_DAYS: Final = ["ma", "di", "wo", "do", "vr", "za", "zo"]` (line 39). -/
def WEEK_DAYS : List String := ["ma", "di", "wo", "do", "vr", "za", "zo"]

/-- One raw shapefile row (`row.record` attributes used by the core).
`parkeer_id` is `PARKEER_ID`; the `do_` field is the `DO` weekday flag
(`do` is a Lean keyword). -/
structure Record where
  parkeer_id : Int
  soort : Option String
  e_type : Option String
  bord : Option String
  kenteken : Option String
  opmerking : Option String
  aantal : Int
  begintijd1 : Option String
  eindtijd1 : Option String
  begintijd2 : Option String
  eindtijd2 : Option String
  tvm_begint : Option String
  tvm_eindt : Option String
  tvm_begind : Option String
  tvm_eindd : Option String
  tvm_opmerk : Option String
  ma_vr : Option Bool
  ma_za : Option Bool
  ma : Option Bool
  di : Option Bool
  wo : Option Bool
  do_ : Option Bool
  vr : Option Bool
  za : Option Bool
  zo : Option Bool
deriving DecidableEq, Repr

/-- A default/empty record, usable as a junk value in total lookups. -/
def emptyRecord : Record where
  parkeer_id := 0
  soort := none
  e_type := none
  bord := none
  kenteken := none
  opmerking := none
  aantal := 0
  begintijd1 := none
  eindtijd1 := none
  begintijd2 := none
  eindtijd2 := none
  tvm_begint := none
  tvm_eindt := none
  tvm_begind := none
  tvm_eindd := none
  tvm_opmerk := none
  ma_vr := none
  ma_za := none
  ma := none
  di := none
  wo := none
  do_ := none
  vr := none
  za := none
  zo := none

/-- `getattr(row.record, day.upper())` for `day` in `WEEK_DAYS` (line 511/516). -/
def flagOf (r : Record) (day : String) : Option Bool :=
  if day = "ma" then r.ma
  else if day = "di" then r.di
  else if day = "wo" then r.wo
  else if day = "do" then r.do_
  else if day = "vr" then r.vr
  else if day = "za" then r.za
  else if day = "zo" then r.zo
  else none

/-- `days_from_row` (lines 499-518): `MA_VR` truthy gives `WEEK_DAYS[:4]`,
else `MA_ZA` truthy gives `WEEK_DAYS[:5]`, else if no weekday flag is truthy
all of `WEEK_DAYS`, else the weekdays whose flag `is not None`. -/
def days_from_row (r : Record) : List String :=
  if truthyB r.ma_vr then WEEK_DAYS.take 4
  else if truthyB r.ma_za then WEEK_DAYS.take 5
  else if !(WEEK_DAYS.any fun day => truthyB (flagOf r day)) then WEEK_DAYS
  else WEEK_DAYS.filter fun day => (flagOf r day).isSome

/-- One decimal digit of a clock string. -/
def digitVal (c : Char) : Option Nat :=
  if c.isDigit then some (c.toNat - 48) else none

/-- Model of `dateutil.parser.parse(value).time()` on clock strings
`H:MM` / `HH:MM`: minutes after midnight when in range, `none` when the
string cannot be parsed (dateutil raises `ParserError` there, which
`parse_time` catches). -/
def parseClock (cs : List Char) : Option Nat :=
  match cs with
  | [h1, h2, c, m1, m2] =>
    if c = ':' then
      match digitVal h1, digitVal h2, digitVal m1, digitVal m2 with
      | some a, some b, some x, some y =>
        let hh := 10 * a + b
        let mm := 10 * x + y
        if hh ≤ 23 ∧ mm ≤ 59 then some (60 * hh + mm) else none
      | _, _, _, _ => none
    else none
  | [h1, c, m1, m2] =>
    if c = ':' then
      match digitVal h1, digitVal m1, digitVal m2 with
      | some a, some x, some y =>
        let mm := 10 * x + y
        if a ≤ 23 ∧ mm ≤ 59 then some (60 * a + mm) else none
      | _, _, _ => none
    else none
  | _ => none

/-- `value.startswith("va ")` handling of `parse_time` (lines 528-529). -/
def stripVa (cs : List Char) : List Char :=
  match cs with
  | 'v' :: 'a' :: ' ' :: rest => rest
  | _ => cs

/-- The normalisation `parse_time` applies before parsing (lines 526-529):
`"24:00"` becomes `"23:59"`, then a leading `"va "` is stripped. -/
def normalizeChars (v : String) : List Char :=
  let v := if v = "24:00" then "23:59" else v
  stripVa v.toList

/-- `parse_time` (lines 521-537): `None` and unparsable values fall back to
the supplied default bound; the function never raises. -/
def parse_time (value : Option String) (default : Nat) : Nat :=
  match value with
  | none => default
  | some v =>
    match parseClock (normalizeChars v) with
    | some t => t
    | none => default

/-- `add_a_minute` (lines 428-431): `datetime.combine(today, time) + 1 minute`
followed by `.time()`, i.e. plus one minute modulo the day. -/
def add_a_minute (t : Nat) : Nat := (t + 1) % 1440

/-- `remove_a_minute` (lines 434-437): minus one minute modulo the day. -/
def remove_a_minute (t : Nat) : Nat := (t + 1440 - 1) % 1440

/-- A mode candidate (the dicts built by `get_modes`).  `opmerking`,
`begin_datum`, `eind_datum` are `some` exactly when the corresponding dict
key is present (TVM modes only). -/
structure Mode where
  soort : String
  bord : String
  e_type : String
  kenteken : Option String
  opmerking : Option String
  begin_datum : Option String
  eind_datum : Option String
  begin_tijd : Nat
  eind_tijd : Nat
deriving DecidableEq, Repr

/-- The shared `base` dict of `get_modes` (lines 443-448) extended with the
time bounds each branch supplies. -/
def mode_base (r : Record) (bt et : Nat) : Mode where
  soort := orDefault r.soort "FISCAAL"
  bord := orDefault r.bord ""
  e_type := orDefault r.e_type ""
  kenteken := r.kenteken
  opmerking := none
  begin_datum := none
  eind_datum := none
  begin_tijd := bt
  eind_tijd := et

/-- The TVM remark escaping of line 465: each single-quote character is
replaced by a backslash followed by that character. -/
def escapeQuote (s : String) : String :=
  s.replace (String.singleton (Char.ofNat 39))
    (String.singleton (Char.ofNat 92) ++ String.singleton (Char.ofNat 39))

/-- The temporary-measure branch of `get_modes` (lines 449-470). -/
def tvm_modes (r : Record) : List Mode :=
  if truthyS r.tvm_begint || truthyS r.tvm_eindt || truthyS r.tvm_begind
      || truthyS r.tvm_eindd || truthyS r.tvm_opmerk then
    [{ mode_base r (parse_time r.tvm_begint 0) (parse_time r.tvm_eindt 1439) with
        soort := orDefault r.e_type "FISCAAL"
        begin_datum := some (orDefault r.tvm_begind "")
        eind_datum := some (orDefault r.tvm_eindd "")
        opmerking := some (escapeQuote (orDefault r.tvm_opmerk "")) }]
  else []

/-- The slot-1 branch of `get_modes` (lines 472-486): one mode when
`begin < end`, the two-fragment overnight split otherwise. -/
def slot1_modes (r : Record) : List Mode :=
  if truthyS r.begintijd1 || truthyS r.eindtijd1 then
    let begin_tijd := parse_time r.begintijd1 0
    let eind_tijd := parse_time r.eindtijd1 1439
    if begin_tijd < eind_tijd then
      [mode_base r begin_tijd eind_tijd]
    else
      [mode_base r 0 eind_tijd, mode_base r begin_tijd 1439]
  else []

/-- The slot-2 branch of `get_modes` (lines 487-495): always a single mode. -/
def slot2_modes (r : Record) : List Mode :=
  if truthyS r.begintijd2 || truthyS r.eindtijd2 then
    [mode_base r (parse_time r.begintijd2 0) (parse_time r.eindtijd2 1439)]
  else []

/-- `get_modes` (lines 440-496): modes appended in TVM, slot-1, slot-2 order. -/
def get_modes (r : Record) : List Mode :=
  tvm_modes r ++ slot1_modes r ++ slot2_modes r

/-- One output regime dict of `create_regimes`. -/
structure Regime where
  parent_id : Int
  soort : String
  e_type : String
  bord : String
  begin_tijd : Nat
  eind_tijd : Nat
  opmerking : String
  dagen : List String
  kenteken : Option String
  begin_datum : Option String
  eind_datum : Option String
deriving DecidableEq, Repr

/-- The `base_data` dict of `create_regimes` (lines 373-385).  The Python
`PARKEER_ID or ""` coercion is dropped: the claims never touch `parent_id`
and the id stays an integer here. -/
def base_data (r : Record) : Regime where
  parent_id := r.parkeer_id
  soort := "FISCAAL"
  e_type := ""
  bord := ""
  begin_tijd := 0
  eind_tijd := 1439
  opmerking := orDefault r.opmerking ""
  dagen := WEEK_DAYS
  kenteken := none
  begin_datum := none
  eind_datum := none

/-- `mode_data = base_data.copy(); mode_data.update(mode)` (lines 413-414):
every key a mode dict always carries overwrites the base, the
TVM-only keys overwrite only when present. -/
def updateWithMode (base : Regime) (m : Mode) : Regime :=
  { base with
    soort := m.soort
    bord := m.bord
    e_type := m.e_type
    kenteken := m.kenteken
    begin_tijd := m.begin_tijd
    eind_tijd := m.eind_tijd
    opmerking := match m.opmerking with | some o => o | none => base.opmerking
    begin_datum := match m.begin_datum with | some d => some d | none => base.begin_datum
    eind_datum := match m.eind_datum with | some d => some d | none => base.eind_datum }

/-- The `for mode in modes` loop of `create_regimes` (lines 404-417): emit a
start-of-day filler when the mode begins after the cursor, then the mode
itself, then advance the cursor to one minute past the end of the mode. -/
def regimesLoop (base : Regime) (days : List String) : Nat → List Mode → List Regime
  | _, [] => []
  | mode_start, m :: ms =>
    let tail :=
      { updateWithMode base m with dagen := days }
        :: regimesLoop base days (add_a_minute m.eind_tijd) ms
    if mode_start < m.begin_tijd then
      { base with
          dagen := days
          begin_tijd := mode_start
          eind_tijd := remove_a_minute m.begin_tijd } :: tail
    else tail

/-- Last element of `d :: l` — the value of the Python loop variable `mode`
after `for mode in modes` has run over a nonempty list. -/
def lastD : List Mode → Mode → Mode
  | [], d => d
  | m :: ms, _ => lastD ms m

/-- `create_regimes` (lines 367-425).  With no modes, the full-override
single regime (lines 391-402); otherwise the cursor walk plus, when the last
mode ends before 23:59, the end-of-day filler (lines 419-424, which read the
loop variable `mode`, i.e. the last mode). -/
def create_regimes (r : Record) : List Regime :=
  let days := days_from_row r
  let base := base_data r
  match get_modes r with
  | [] =>
    [{ base with
        soort := orDefault r.soort "FISCAAL"
        bord := orDefault r.bord ""
        e_type := orDefault r.e_type ""
        kenteken := r.kenteken }]
  | m :: ms =>
    let body := regimesLoop base days 0 (m :: ms)
    let lastMode := lastD ms m
    body ++
      (if lastMode.eind_tijd < 1439 then
        [{ base with dagen := days, begin_tijd := add_a_minute lastMode.eind_tijd }]
      else [])

/-- The dominant restriction kind of a spot (lines 100-102):
`soort = "FISCAAL"; if len(regimes) == 1: soort = regimes[0]["soort"]`. -/
def dominant_soort (r : Record) : String :=
  match create_regimes r with
  | [g] => g.soort
  | _ => "FISCAAL"

/-- Begin time of the first regime of a sequence (default `d` when empty). -/
def headBegin : List Regime → Nat → Nat
  | [], d => d
  | g :: _, _ => g.begin_tijd

/-- End time of the last regime of a sequence (default `d` when empty). -/
def lastEind : List Regime → Nat → Nat
  | [], d => d
  | g :: gs, _ => lastEind gs g.eind_tijd

/-- Begin time of the last regime of a sequence (default `d` when empty). -/
def lastBegin : List Regime → Nat → Nat
  | [], d => d
  | g :: gs, _ => lastBegin gs g.begin_tijd

/-- A regime sequence is contiguous when every adjacent pair splices exactly:
the later begin time is the earlier end time plus one minute. -/
def isContiguous : List Regime → Bool
  | a :: b :: rest => (b.begin_tijd == a.eind_tijd + 1) && isContiguous (b :: rest)
  | _ => true

/-- A regime sequence is ordered by begin time. -/
def isSortedByBegin : List Regime → Bool
  | a :: b :: rest =>
    decide (a.begin_tijd ≤ b.begin_tijd) && isSortedByBegin (b :: rest)
  | _ => true

/-- Every regime of the sequence has `begin_tijd ≤ eind_tijd`. -/
def allBeginLeEind (l : List Regime) : Bool :=
  l.all fun g => decide (g.begin_tijd ≤ g.eind_tijd)

/-- A mode list is chronologically consistent from cursor `cur`: each mode
has `cur ≤ begin ≤ end ≤ 23:59` and the next mode starts no earlier than one
minute after this one ends. -/
def chronoFrom : Nat → List Mode → Bool
  | _, [] => true
  | cur, m :: ms =>
    decide (cur ≤ m.begin_tijd) && decide (m.begin_tijd ≤ m.eind_tijd)
      && decide (m.eind_tijd ≤ 1439) && chronoFrom (m.eind_tijd + 1) ms

/-- Run-scoped state of the `import_data` batch scan (lines 87-97, 104-122):
seen ids, rejected duplicate ids, and the per-spot and per-regime rows
accumulated for the persistence collaborator (a processed spot is kept as
the record together with its dominant kind). -/
structure ImportState where
  ids : List Int
  duplicates : List Int
  parkeervakken : List (Record × String)
  regimes : List Regime
deriving DecidableEq, Repr

/-- The `for row in shape` loop of `import_data` (lines 92-122): a row whose
id was already seen is appended to `duplicates` and skipped (`continue`);
otherwise its id is appended to `ids` and the row is processed into the
spot and regime outputs. -/
def import_rows : List Record → ImportState → ImportState
  | [], st => st
  | row :: rest, st =>
    if row.parkeer_id ∈ st.ids then
      import_rows rest { st with duplicates := st.duplicates ++ [row.parkeer_id] }
    else
      import_rows rest
        { ids := st.ids ++ [row.parkeer_id]
          duplicates := st.duplicates
          parkeervakken := st.parkeervakken ++ [(row, dominant_soort row)]
          regimes := st.regimes ++ create_regimes row }

/-- `import_data` (lines 65-149) restricted to its algorithmic content: scan
the rows with the caller-supplied seen-id list, returning the accumulated
state (whose `duplicates` list the source returns). -/
def import_data (rows : List Record) (ids : List Int) : ImportState :=
  import_rows rows { ids := ids, duplicates := [], parkeervakken := [], regimes := [] }

/-! Concrete records used by counterexamples and witnesses. -/

/-- Record with slot-1 08:00-18:00 and an overlapping slot-2 10:00-12:00. -/
def c1_row : Record :=
  { emptyRecord with
      parkeer_id := 1
      begintijd1 := some "08:00", eindtijd1 := some "18:00"
      begintijd2 := some "10:00", eindtijd2 := some "12:00" }

/-- The literal spec scenario: id 42, slot-1 08:00-18:00, nothing else. -/
def c1_witness_row : Record :=
  { emptyRecord with
      parkeer_id := 42
      begintijd1 := some "08:00", eindtijd1 := some "18:00" }

/-- Record with only the Monday-Friday aggregate flag set. -/
def c2_row_vr : Record := { emptyRecord with parkeer_id := 2, ma_vr := some true }

/-- Record with only the Monday-Saturday aggregate flag set. -/
def c2_row_za : Record := { emptyRecord with parkeer_id := 2, ma_za := some true }

/-- Record whose single mode (slot-1 08:00-18:00) carries kind "E6". -/
def c4_row : Record :=
  { emptyRecord with
      parkeer_id := 4
      soort := some "E6"
      begintijd1 := some "08:00", eindtijd1 := some "18:00" }

/-- Record with no time fields and sign type "E7". -/
def c4_row2 : Record := { emptyRecord with parkeer_id := 4, soort := some "E7" }

/-- The single regime `create_regimes` emits for `c4_row2`. -/
def c4_regime : Regime :=
  { base_data c4_row2 with soort := "E7", kenteken := none }

/-- Record with no time fields, sign type "E6" and the Monday-Friday flag. -/
def c5_row : Record :=
  { emptyRecord with parkeer_id := 5, soort := some "E6", ma_vr := some true }

/-- Overnight slot-1 record: begin 20:00, end 06:00. -/
def c6_row : Record :=
  { emptyRecord with
      parkeer_id := 7
      begintijd1 := some "20:00", eindtijd1 := some "06:00" }

/-- Record triggering all three `get_modes` branches with an overnight
slot-1: the TVM remark, slot-1 20:00-06:00, slot-2 10:00-12:00. -/
def c7_row : Record :=
  { emptyRecord with
      parkeer_id := 8
      tvm_opmerk := some "wegwerkzaamheden"
      begintijd1 := some "20:00", eindtijd1 := some "06:00"
      begintijd2 := some "10:00", eindtijd2 := some "12:00" }

/-- First record carrying spot id 9. -/
def c9_row_a : Record := { emptyRecord with parkeer_id := 9 }

/-- Second record carrying spot id 9 (different payload, same id). -/
def c9_row_b : Record := { emptyRecord with parkeer_id := 9, soort := some "E6" }

/-- Record with every weekday flag present but falsy and no aggregate flag. -/
def c10_row : Record :=
  { emptyRecord with
      parkeer_id := 10
      ma := some false, di := some false, wo := some false, do_ := some false
      vr := some false, za := some false, zo := some false }

/-- Record with a truthy Monday flag and a falsy-but-present Tuesday flag. -/
def c10_witness_row : Record :=
  { emptyRecord with parkeer_id := 10, ma := some true, di := some false }

/-! Theorems settling the claims. -/

theorem chronoFrom_cons (cur : Nat) (m : Mode) (ms : List Mode) :
    chronoFrom cur (m :: ms) = true ↔
      cur ≤ m.begin_tijd ∧ m.begin_tijd ≤ m.eind_tijd ∧ m.eind_tijd ≤ 1439 ∧
        chronoFrom (m.eind_tijd + 1) ms = true := by
  simp [chronoFrom, and_assoc]

theorem chrono_lastD_le (ms : List Mode) :
    ∀ (m : Mode) (cur : Nat), chronoFrom cur (m :: ms) = true →
      (lastD ms m).eind_tijd ≤ 1439 := by
  induction ms with
  | nil =>
    intro m cur h
    exact ((chronoFrom_cons cur m []).mp h).2.2.1
  | cons m2 ms2 ih =>
    intro m cur h
    exact ih m2 _ ((chronoFrom_cons cur m (m2 :: ms2)).mp h).2.2.2

theorem lastEind_append (l1 l2 : List Regime) (d : Nat) :
    lastEind (l1 ++ l2) d = lastEind l2 (lastEind l1 d) := by
  induction l1 generalizing d with
  | nil => rfl
  | cons g gs ih => simp only [List.cons_append, lastEind, List.append_eq, ih]

theorem lastEind_indep (l : List Regime) (d d2 : Nat) (h : l ≠ []) :
    lastEind l d = lastEind l d2 := by
  cases l with
  | nil => exact absurd rfl h
  | cons g gs => rfl

theorem headBegin_append (l1 l2 : List Regime) (d : Nat) (h : l1 ≠ []) :
    headBegin (l1 ++ l2) d = headBegin l1 d := by
  cases l1 with
  | nil => exact absurd rfl h
  | cons g gs => rfl

theorem isContiguous_snoc (a : Regime) (l : List Regime) (g : Regime) :
    isContiguous ((a :: l) ++ [g]) =
      (isContiguous (a :: l) && (g.begin_tijd == lastEind l a.eind_tijd + 1)) := by
  induction l generalizing a with
  | nil => simp [isContiguous, lastEind]
  | cons b bs ih =>
    simp only [List.cons_append]
    rw [show isContiguous (a :: b :: (bs ++ [g]))
          = ((b.begin_tijd == a.eind_tijd + 1) && isContiguous (b :: (bs ++ [g]))) from rfl]
    rw [show (b :: (bs ++ [g])) = ((b :: bs) ++ [g]) from rfl, ih b]
    rw [show isContiguous (a :: b :: bs)
          = ((b.begin_tijd == a.eind_tijd + 1) && isContiguous (b :: bs)) from rfl]
    rw [show lastEind (b :: bs) a.eind_tijd = lastEind bs b.eind_tijd from rfl]
    rw [Bool.and_assoc]

theorem allBeginLeEind_iff (l : List Regime) :
    allBeginLeEind l = true ↔ ∀ g ∈ l, g.begin_tijd ≤ g.eind_tijd := by
  simp [allBeginLeEind]

theorem sorted_of_contig (l : List Regime) :
    isContiguous l = true → allBeginLeEind l = true → isSortedByBegin l = true := by
  induction l with
  | nil => intro _ _; rfl
  | cons a t ih =>
    intro h1 h2
    cases t with
    | nil => rfl
    | cons b rest =>
      rw [show isContiguous (a :: b :: rest)
            = ((b.begin_tijd == a.eind_tijd + 1) && isContiguous (b :: rest)) from rfl,
          Bool.and_eq_true] at h1
      have hba : b.begin_tijd = a.eind_tijd + 1 := by simpa using h1.1
      have hae : a.begin_tijd ≤ a.eind_tijd :=
        (allBeginLeEind_iff _).mp h2 a (by simp)
      have h2t : allBeginLeEind (b :: rest) = true := by
        rw [allBeginLeEind_iff]
        intro g hg
        exact (allBeginLeEind_iff _).mp h2 g (by simp [List.mem_cons] at hg ⊢; tauto)
      rw [show isSortedByBegin (a :: b :: rest)
            = (decide (a.begin_tijd ≤ b.begin_tijd) && isSortedByBegin (b :: rest)) from rfl,
          Bool.and_eq_true]
      exact ⟨by simp; omega, ih h1.2 h2t⟩

theorem regimesLoop_spec (base : Regime) (days : List String) (ms : List Mode) :
    ∀ (m : Mode) (cur : Nat),
      chronoFrom cur (m :: ms) = true →
      regimesLoop base days cur (m :: ms) ≠ [] ∧
      headBegin (regimesLoop base days cur (m :: ms)) 0 = cur ∧
      lastEind (regimesLoop base days cur (m :: ms)) 0 = (lastD ms m).eind_tijd ∧
      isContiguous (regimesLoop base days cur (m :: ms)) = true ∧
      allBeginLeEind (regimesLoop base days cur (m :: ms)) = true := by
  induction ms with
  | nil =>
    intro m cur h
    obtain ⟨hcb, hbe, he, -⟩ := (chronoFrom_cons cur m []).mp h
    by_cases hlt : cur < m.begin_tijd
    · have hrm : remove_a_minute m.begin_tijd = m.begin_tijd - 1 := by
        unfold remove_a_minute; omega
      have hout : regimesLoop base days cur [m] =
          [{ base with
              dagen := days
              begin_tijd := cur
              eind_tijd := remove_a_minute m.begin_tijd },
           { updateWithMode base m with dagen := days }] := by
        simp [regimesLoop, hlt]
      rw [hout]
      refine ⟨by simp, rfl, rfl, ?_, ?_⟩
      · simp [isContiguous, updateWithMode, hrm]
        omega
      · simp [allBeginLeEind, updateWithMode, hrm]
        omega
    · have hout : regimesLoop base days cur [m] =
          [{ updateWithMode base m with dagen := days }] := by
        simp [regimesLoop, hlt]
      rw [hout]
      refine ⟨by simp, ?_, rfl, rfl, ?_⟩
      · simp [headBegin, updateWithMode]
        omega
      · simp [allBeginLeEind, updateWithMode]
        omega
  | cons m2 ms2 ih =>
    intro m cur h
    obtain ⟨hcb, hbe, he, htail⟩ := (chronoFrom_cons cur m (m2 :: ms2)).mp h
    obtain ⟨h2b, h2be, h2e, -⟩ := (chronoFrom_cons _ m2 ms2).mp htail
    have hadd : add_a_minute m.eind_tijd = m.eind_tijd + 1 := by
      unfold add_a_minute; omega
    obtain ⟨hne2, hhead2, hlast2, hcontig2, hall2⟩ := ih m2 (m.eind_tijd + 1) htail
    obtain ⟨r0, rs, hr0⟩ : ∃ r0 rs,
        regimesLoop base days (m.eind_tijd + 1) (m2 :: ms2) = r0 :: rs := by
      cases hc : regimesLoop base days (m.eind_tijd + 1) (m2 :: ms2) with
      | nil => exact absurd hc hne2
      | cons x xs => exact ⟨x, xs, rfl⟩
    have hr0begin : r0.begin_tijd = m.eind_tijd + 1 := by
      rw [hr0] at hhead2; exact hhead2
    have hlast2r : lastEind rs r0.eind_tijd = (lastD ms2 m2).eind_tijd := by
      rw [hr0] at hlast2; exact hlast2
    have hcontig2r : isContiguous (r0 :: rs) = true := by rw [hr0] at hcontig2; exact hcontig2
    have hall2r : allBeginLeEind (r0 :: rs) = true := by rw [hr0] at hall2; exact hall2
    have hstep : regimesLoop base days cur (m :: m2 :: ms2) =
        if cur < m.begin_tijd then
          { base with
              dagen := days
              begin_tijd := cur
              eind_tijd := remove_a_minute m.begin_tijd }
            :: { updateWithMode base m with dagen := days }
            :: regimesLoop base days (add_a_minute m.eind_tijd) (m2 :: ms2)
        else
          { updateWithMode base m with dagen := days }
            :: regimesLoop base days (add_a_minute m.eind_tijd) (m2 :: ms2) := rfl
    by_cases hlt : cur < m.begin_tijd
    · have hrm : remove_a_minute m.begin_tijd = m.begin_tijd - 1 := by
        unfold remove_a_minute; omega
      have hout : regimesLoop base days cur (m :: m2 :: ms2) =
          { base with
              dagen := days
              begin_tijd := cur
              eind_tijd := remove_a_minute m.begin_tijd }
            :: { updateWithMode base m with dagen := days }
            :: r0 :: rs := by
        rw [hstep, if_pos hlt, hadd, hr0]
      rw [hout]
      refine ⟨by simp, rfl, ?_, ?_, ?_⟩
      · show lastEind rs r0.eind_tijd = (lastD (m2 :: ms2) m).eind_tijd
        exact hlast2r
      · rw [show isContiguous
              ({ base with
                  dagen := days
                  begin_tijd := cur
                  eind_tijd := remove_a_minute m.begin_tijd }
                :: { updateWithMode base m with dagen := days } :: r0 :: rs)
              = ((({ updateWithMode base m with dagen := days } : Regime).begin_tijd
                    == remove_a_minute m.begin_tijd + 1)
                  && isContiguous
                      ({ updateWithMode base m with dagen := days } :: r0 :: rs)) from rfl]
        rw [show isContiguous ({ updateWithMode base m with dagen := days } :: r0 :: rs)
              = ((r0.begin_tijd
                    == ({ updateWithMode base m with dagen := days } : Regime).eind_tijd + 1)
                  && isContiguous (r0 :: rs)) from rfl]
        have hb1 : (({ updateWithMode base m with dagen := days } : Regime).begin_tijd
            == remove_a_minute m.begin_tijd + 1) = true := by
          simp [updateWithMode, hrm]; omega
        have hb2 : (r0.begin_tijd
            == ({ updateWithMode base m with dagen := days } : Regime).eind_tijd + 1) = true := by
          simp [updateWithMode, hr0begin]
        rw [hb1, hb2, hcontig2r]
        rfl
      · rw [allBeginLeEind_iff]
        intro g hg
        rcases List.mem_cons.mp hg with hg1 | hg
        · subst hg1; simp [hrm]; omega
        rcases List.mem_cons.mp hg with hg2 | hg
        · subst hg2; simp [updateWithMode]; omega
        · exact (allBeginLeEind_iff _).mp hall2r g hg
    · have hout : regimesLoop base days cur (m :: m2 :: ms2) =
          { updateWithMode base m with dagen := days } :: r0 :: rs := by
        rw [hstep, if_neg hlt, hadd, hr0]
      rw [hout]
      refine ⟨by simp, ?_, ?_, ?_, ?_⟩
      · show ({ updateWithMode base m with dagen := days } : Regime).begin_tijd = cur
        simp [updateWithMode]; omega
      · show lastEind rs r0.eind_tijd = (lastD (m2 :: ms2) m).eind_tijd
        exact hlast2r
      · rw [show isContiguous ({ updateWithMode base m with dagen := days } :: r0 :: rs)
              = ((r0.begin_tijd
                    == ({ updateWithMode base m with dagen := days } : Regime).eind_tijd + 1)
                  && isContiguous (r0 :: rs)) from rfl]
        have hb2 : (r0.begin_tijd
            == ({ updateWithMode base m with dagen := days } : Regime).eind_tijd + 1) = true := by
          simp [updateWithMode, hr0begin]
        rw [hb2, hcontig2r]
        rfl
      · rw [allBeginLeEind_iff]
        intro g hg
        rcases List.mem_cons.mp hg with hg2 | hg
        · subst hg2; simp [updateWithMode]; omega
        · exact (allBeginLeEind_iff _).mp hall2r g hg

/-- C1 counterexample: `c1_row` (slot-1 08:00-18:00 overlapped by slot-2
10:00-12:00) yields two modes, and the emitted regime sequence — already
ordered by begin time — is not contiguous: the regime beginning 10:00 does
not start one minute after the previous one ends (18:00). -/
theorem c1_counterexample :
    get_modes c1_row ≠ [] ∧
    isSortedByBegin (create_regimes c1_row) = true ∧
    isContiguous (create_regimes c1_row) = false := by
  decide

/-- C1 (amended): for every record whose extracted modes are chronologically
consistent (begin ≤ end ≤ 23:59 for each mode, and each successive mode begins
at least one minute after the previous one ends), the emitted regime
sequence is nonempty, already ordered by begin time, contiguous (each next
begin equals the previous end plus one minute), and spans 00:00 to 23:59. -/
theorem create_regimes_gap_free (r : Record)
    (h1 : get_modes r ≠ [])
    (h2 : chronoFrom 0 (get_modes r) = true) :
    create_regimes r ≠ [] ∧
    isSortedByBegin (create_regimes r) = true ∧
    isContiguous (create_regimes r) = true ∧
    headBegin (create_regimes r) 0 = 0 ∧
    lastEind (create_regimes r) 0 = 1439 := by
  obtain ⟨m, ms, hm⟩ : ∃ m ms, get_modes r = m :: ms := by
    cases hg : get_modes r with
    | nil => exact absurd hg h1
    | cons x xs => exact ⟨x, xs, rfl⟩
  rw [hm] at h2
  have hlastle := chrono_lastD_le ms m 0 h2
  obtain ⟨hne, hhead, hlast, hcontig, hall⟩ :=
    regimesLoop_spec (base_data r) (days_from_row r) ms m 0 h2
  obtain ⟨b0, bs, hb0⟩ : ∃ b0 bs,
      regimesLoop (base_data r) (days_from_row r) 0 (m :: ms) = b0 :: bs := by
    cases hc : regimesLoop (base_data r) (days_from_row r) 0 (m :: ms) with
    | nil => exact absurd hc hne
    | cons x xs => exact ⟨x, xs, rfl⟩
  rw [hb0] at hhead hlast hcontig hall
  have hcr : create_regimes r =
      (b0 :: bs) ++
        (if (lastD ms m).eind_tijd < 1439 then
          [{ base_data r with
              dagen := days_from_row r
              begin_tijd := add_a_minute (lastD ms m).eind_tijd }]
        else []) := by
    simp only [create_regimes, hm, hb0]
  by_cases hfin : (lastD ms m).eind_tijd < 1439
  · have haddf : add_a_minute (lastD ms m).eind_tijd = (lastD ms m).eind_tijd + 1 := by
      unfold add_a_minute; omega
    have hcr2 : create_regimes r =
        (b0 :: bs) ++
          [{ base_data r with
              dagen := days_from_row r
              begin_tijd := add_a_minute (lastD ms m).eind_tijd }] := by
      rw [hcr, if_pos hfin]
    have hlastbs : lastEind bs b0.eind_tijd = (lastD ms m).eind_tijd := hlast
    have hcontig2 : isContiguous
        ((b0 :: bs) ++
          [{ base_data r with
              dagen := days_from_row r
              begin_tijd := add_a_minute (lastD ms m).eind_tijd }]) = true := by
      rw [isContiguous_snoc, Bool.and_eq_true]
      refine ⟨hcontig, ?_⟩
      simp [base_data, hlastbs, haddf]
    have hall2 : allBeginLeEind
        ((b0 :: bs) ++
          [{ base_data r with
              dagen := days_from_row r
              begin_tijd := add_a_minute (lastD ms m).eind_tijd }]) = true := by
      rw [allBeginLeEind_iff]
      intro g hg
      rcases List.mem_append.mp hg with hg1 | hg2
      · exact (allBeginLeEind_iff _).mp hall g hg1
      · have hg3 : g = { base_data r with
            dagen := days_from_row r
            begin_tijd := add_a_minute (lastD ms m).eind_tijd } := by
          simpa using hg2
        subst hg3
        simp [base_data, haddf]
        omega
    refine ⟨?_, ?_, ?_, ?_, ?_⟩
    · rw [hcr2]; simp
    · rw [hcr2]; exact sorted_of_contig _ hcontig2 hall2
    · rw [hcr2]; exact hcontig2
    · rw [hcr2, headBegin_append _ _ _ (by simp)]; exact hhead
    · rw [hcr2, lastEind_append]
      rfl
  · have hfin2 : (lastD ms m).eind_tijd = 1439 := by omega
    have hcr2 : create_regimes r = b0 :: bs := by
      rw [hcr, if_neg hfin, List.append_nil]
    refine ⟨by rw [hcr2]; simp, ?_, ?_, ?_, ?_⟩
    · rw [hcr2]; exact sorted_of_contig _ hcontig hall
    · rw [hcr2]; exact hcontig
    · rw [hcr2]; exact hhead
    · rw [hcr2]
      show lastEind bs b0.eind_tijd = 1439
      rw [show lastEind bs b0.eind_tijd = lastEind (b0 :: bs) 0 from rfl, hlast, hfin2]

/-- C1 witness: the amended statement instantiated at the literal spec
scenario, id 42 with slot-1 08:00-18:00 and nothing else. -/
theorem c1_witness :
    (get_modes c1_witness_row ≠ [] ∧ chronoFrom 0 (get_modes c1_witness_row) = true) ∧
    (create_regimes c1_witness_row ≠ [] ∧
     isSortedByBegin (create_regimes c1_witness_row) = true ∧
     isContiguous (create_regimes c1_witness_row) = true ∧
     headBegin (create_regimes c1_witness_row) 0 = 0 ∧
     lastEind (create_regimes c1_witness_row) 0 = 1439) :=
  ⟨⟨by decide, by decide⟩,
   create_regimes_gap_free c1_witness_row (by decide) (by decide)⟩

/-- C2: evaluation of `days_from_row` at its failing inputs.  With the
Monday-Friday flag set the code returns `WEEK_DAYS[:4]` (Monday-Thursday),
not the Monday-Friday set its own comment and the claim state; with the
Monday-Saturday flag set it returns `WEEK_DAYS[:5]` (Monday-Friday), not
Monday-Saturday. -/
theorem c2_aggregate_flags_eval :
    days_from_row c2_row_vr = ["ma", "di", "wo", "do"] ∧
    days_from_row c2_row_vr ≠ ["ma", "di", "wo", "do", "vr"] ∧
    days_from_row c2_row_za = ["ma", "di", "wo", "do", "vr"] ∧
    days_from_row c2_row_za ≠ ["ma", "di", "wo", "do", "vr", "za"] := by
  decide

/-- C3 counterexample: `add_a_minute` does wrap across midnight — adding one
minute to 23:59 yields exactly 00:00, and removing one minute from 00:00
yields 23:59, contradicting the claim that no wrap occurs. -/
theorem c3_counterexample : add_a_minute 1439 = 0 ∧ remove_a_minute 0 = 1439 := by
  decide

/-- C3 (amended): the minute arithmetic is modular in the time of day —
ordinary plus/minus one minute away from the day boundaries, and wrapping
`23:59 + 1 = 00:00`, `00:00 - 1 = 23:59` at them. -/
theorem c3_minute_arithmetic_wraps :
    (∀ t, t < 1439 → add_a_minute t = t + 1) ∧ add_a_minute 1439 = 0 ∧
    (∀ t, 0 < t → t ≤ 1439 → remove_a_minute t = t - 1) ∧ remove_a_minute 0 = 1439 := by
  refine ⟨fun t ht => ?_, by decide, fun t h1 h2 => ?_, by decide⟩
  · unfold add_a_minute; omega
  · unfold remove_a_minute; omega

/-- C3 witness: the amended wrap-around statement instantiated at 10
minutes past midnight. -/
theorem c3_witness :
    (10 < 1439 ∧ add_a_minute 10 = 11) ∧ (0 < 10 ∧ 10 ≤ 1439 ∧ remove_a_minute 10 = 9) :=
  ⟨⟨by decide, c3_minute_arithmetic_wraps.1 10 (by decide)⟩,
   ⟨by decide, by decide, c3_minute_arithmetic_wraps.2.2.1 10 (by decide) (by decide)⟩⟩

/-- C4 counterexample: `c4_row` extracts exactly one mode of kind "E6", yet
the code computes the spot kind from the emitted regime count (three here:
filler, mode, filler) and returns "FISCAAL", not the kind of the single mode. -/
theorem c4_counterexample :
    (get_modes c4_row).length = 1 ∧
    ((get_modes c4_row).headD (mode_base c4_row 0 0)).soort = "E6" ∧
    dominant_soort c4_row = "FISCAAL" := by
  decide

/-- C4 (amended): the dominant kind of the spot is "FISCAAL" unless the emitted
regime list (not the extracted mode list) has exactly one element, in which
case it is the kind of that single regime. -/
theorem c4_dominant_kind_from_regimes (r : Record) :
    (∀ g, create_regimes r = [g] → dominant_soort r = g.soort) ∧
    ((create_regimes r).length ≠ 1 → dominant_soort r = "FISCAAL") := by
  constructor
  · intro g h
    simp [dominant_soort, h]
  · intro h
    cases hc : create_regimes r with
    | nil => simp [dominant_soort, hc]
    | cons g t =>
      cases t with
      | nil => exact absurd (by simp [hc]) h
      | cons b t2 => simp [dominant_soort, hc]

/-- C4 witness: the amended statement instantiated at a record whose regime
list is the single full-override regime of kind "E7". -/
theorem c4_witness :
    create_regimes c4_row2 = [c4_regime] ∧ dominant_soort c4_row2 = c4_regime.soort :=
  ⟨by decide, (c4_dominant_kind_from_regimes c4_row2).1 c4_regime (by decide)⟩

/-- C5 counterexample: `c5_row` yields no mode, and the emitted single
regime has kind "E6" (the sign type of the record itself), not "FISCAAL", and
carries the full seven-day list, not the Monday-Friday DayRule that
`days_from_row` computes for the record. -/
theorem c5_counterexample :
    get_modes c5_row = [] ∧
    ((create_regimes c5_row).headD (base_data c5_row)).soort ≠ "FISCAAL" ∧
    ((create_regimes c5_row).headD (base_data c5_row)).dagen ≠ days_from_row c5_row := by
  decide

/-- C5 (amended): for every record with no extracted mode, `create_regimes`
emits exactly one whole-day regime whose kind is the sign type of the record when
truthy and "FISCAAL" otherwise, and whose day list is the full `WEEK_DAYS`,
not the computed DayRule. -/
theorem c5_no_modes_single_regime (r : Record) (h : get_modes r = []) :
    ∃ g, create_regimes r = [g] ∧ g.begin_tijd = 0 ∧ g.eind_tijd = 1439 ∧
      g.soort = orDefault r.soort "FISCAAL" ∧ g.dagen = WEEK_DAYS ∧
      g.kenteken = r.kenteken := by
  refine ⟨{ base_data r with
      soort := orDefault r.soort "FISCAAL"
      bord := orDefault r.bord ""
      e_type := orDefault r.e_type ""
      kenteken := r.kenteken }, ?_, rfl, rfl, rfl, rfl, rfl⟩
  simp [create_regimes, h]

/-- C5 witness: the amended statement instantiated at `c5_row`. -/
theorem c5_witness :
    get_modes c5_row = [] ∧
    ∃ g, create_regimes c5_row = [g] ∧ g.begin_tijd = 0 ∧ g.eind_tijd = 1439 ∧
      g.soort = orDefault c5_row.soort "FISCAAL" ∧ g.dagen = WEEK_DAYS ∧
      g.kenteken = c5_row.kenteken :=
  ⟨by decide, c5_no_modes_single_regime c5_row (by decide)⟩

/-- C6 (confirmed): whenever slot-1 begin or end is present and the parsed
begin time is not below the parsed end time, `get_modes` emits exactly the
two overnight fragments `[00:00, end]` and `[begin, 23:59]` for slot 1, in
that order, between the TVM and slot-2 contributions. -/
theorem c6_overnight_split (r : Record)
    (h1 : (truthyS r.begintijd1 || truthyS r.eindtijd1) = true)
    (h2 : ¬ parse_time r.begintijd1 0 < parse_time r.eindtijd1 1439) :
    get_modes r =
      tvm_modes r
        ++ [mode_base r 0 (parse_time r.eindtijd1 1439),
            mode_base r (parse_time r.begintijd1 0) 1439]
        ++ slot2_modes r := by
  unfold get_modes slot1_modes
  simp [h1, h2]

/-- C6 witness: the overnight split at the literal 20:00-06:00 record. -/
theorem c6_witness :
    (truthyS c6_row.begintijd1 || truthyS c6_row.eindtijd1) = true ∧
    (¬ parse_time c6_row.begintijd1 0 < parse_time c6_row.eindtijd1 1439) ∧
    get_modes c6_row =
      tvm_modes c6_row
        ++ [mode_base c6_row 0 (parse_time c6_row.eindtijd1 1439),
            mode_base c6_row (parse_time c6_row.begintijd1 0) 1439]
        ++ slot2_modes c6_row :=
  ⟨by decide, by decide, c6_overnight_split c6_row (by decide) (by decide)⟩

/-- C7 counterexample: a record with a temporary measure, an overnight
slot 1, and a slot 2 yields four mode candidates, refuting the at-most-3
claim. -/
theorem c7_counterexample : (get_modes c7_row).length = 4 := by
  decide

/-- C7 (amended): `get_modes` produces at most 4 mode candidates — at most
one for the temporary measure, at most two for slot 1 (the overnight split),
and at most one for slot 2. -/
theorem c7_at_most_four_modes (r : Record) : (get_modes r).length ≤ 4 := by
  have h1 : (tvm_modes r).length ≤ 1 := by
    unfold tvm_modes; split <;> simp
  have h2 : (slot1_modes r).length ≤ 2 := by
    unfold slot1_modes; split
    · dsimp only; split <;> simp
    · simp
  have h3 : (slot2_modes r).length ≤ 1 := by
    unfold slot2_modes; split <;> simp
  simp only [get_modes, List.length_append]
  omega

/-- C7 witness: the at-most-four bound instantiated at the four-mode record. -/
theorem c7_witness : (get_modes c7_row).length ≤ 4 :=
  c7_at_most_four_modes c7_row

/-- C8 (confirmed): `parse_time` is total, and whenever the normalised value
cannot be parsed as a clock time it returns the supplied default bound. -/
theorem c8_parse_time_falls_back (v : String) (d : Nat)
    (h : parseClock (normalizeChars v) = none) :
    parse_time (some v) d = d := by
  simp [parse_time, h]

/-- C8 witness: the unparsable value "25:99" falls back to the default 0. -/
theorem c8_witness :
    parseClock (normalizeChars "25:99") = none ∧ parse_time (some "25:99") 0 = 0 :=
  ⟨by decide, c8_parse_time_falls_back "25:99" 0 (by decide)⟩

/-- C10 counterexample: at the input class the claim describes (neither
aggregate flag set, every weekday flag present but falsy) the all-days test
fires, so the resolver returns all seven days — and the "weekdays whose flag
is not None" are themselves all seven days, so the claimed "those weekdays
rather than all seven days" outcome is impossible there. -/
theorem c10_counterexample :
    days_from_row c10_row = WEEK_DAYS ∧
    WEEK_DAYS.filter (fun day => (flagOf c10_row day).isSome) = WEEK_DAYS := by
  decide

/-- C10 (amended): when neither aggregate flag is truthy and at least one
weekday flag is truthy, the individual-weekday branch runs and includes a
weekday iff its flag is not None — so weekdays whose flag is a present but
falsy value are included. -/
theorem c10_individual_branch_uses_not_none (r : Record)
    (h1 : truthyB r.ma_vr = false) (h2 : truthyB r.ma_za = false)
    (h3 : (WEEK_DAYS.any fun day => truthyB (flagOf r day)) = true) :
    days_from_row r = WEEK_DAYS.filter fun day => (flagOf r day).isSome := by
  simp [days_from_row, h1, h2, h3]

theorem import_rows_append (xs ys : List Record) :
    ∀ st, import_rows (xs ++ ys) st = import_rows ys (import_rows xs st) := by
  induction xs with
  | nil => intro st; rfl
  | cons r rest ih =>
    intro st
    simp only [List.cons_append, import_rows]
    split
    · exact ih _
    · exact ih _

theorem import_rows_ids_mono (rows : List Record) :
    ∀ st x, x ∈ st.ids → x ∈ (import_rows rows st).ids := by
  induction rows with
  | nil => intro st x h; exact h
  | cons r rest ih =>
    intro st x h
    simp only [import_rows]
    split
    · exact ih _ x h
    · exact ih _ x (List.mem_append_left _ h)

theorem import_rows_dups_mono (rows : List Record) :
    ∀ st x, x ∈ st.duplicates → x ∈ (import_rows rows st).duplicates := by
  induction rows with
  | nil => intro st x h; exact h
  | cons r rest ih =>
    intro st x h
    simp only [import_rows]
    split
    · exact ih _ x (List.mem_append_left _ h)
    · exact ih _ x h

theorem import_rows_pv_mono (rows : List Record) :
    ∀ st p, p ∈ st.parkeervakken → p ∈ (import_rows rows st).parkeervakken := by
  induction rows with
  | nil => intro st p h; exact h
  | cons r rest ih =>
    intro st p h
    simp only [import_rows]
    split
    · exact ih _ p h
    · exact ih _ p (List.mem_append_left _ h)

theorem import_rows_ids_sub (rows : List Record) :
    ∀ st x, x ∈ (import_rows rows st).ids →
      x ∈ st.ids ∨ x ∈ rows.map Record.parkeer_id := by
  induction rows with
  | nil => intro st x h; exact Or.inl h
  | cons r rest ih =>
    intro st x h
    simp only [import_rows] at h
    split at h
    · rcases ih _ x h with h1 | h1
      · exact Or.inl h1
      · exact Or.inr (by simp [h1])
    · rcases ih _ x h with h1 | h1
      · rcases List.mem_append.mp h1 with h2 | h2
        · exact Or.inl h2
        · exact Or.inr (by simp at h2; simp [h2])
      · exact Or.inr (by simp [h1])

theorem import_rows_pv_ids (rows : List Record) :
    ∀ st, (∀ p ∈ st.parkeervakken, p.1.parkeer_id ∈ st.ids) →
      ∀ p ∈ (import_rows rows st).parkeervakken,
        p.1.parkeer_id ∈ (import_rows rows st).ids := by
  induction rows with
  | nil => intro st h; exact h
  | cons r rest ih =>
    intro st h
    simp only [import_rows]
    split
    · exact ih _ (fun p hp => h p hp)
    · refine ih _ ?_
      intro p hp
      rcases List.mem_append.mp hp with h2 | h2
      · exact List.mem_append_left _ (h p h2)
      · have : p = (r, dominant_soort r) := by simpa using h2
        subst this
        exact List.mem_append_right _ (by simp)

theorem import_rows_countP_frozen (rows : List Record) :
    ∀ st k, k ∈ st.ids →
      ((import_rows rows st).parkeervakken.countP fun p => p.1.parkeer_id == k) =
        (st.parkeervakken.countP fun p => p.1.parkeer_id == k) := by
  induction rows with
  | nil => intro st k _; rfl
  | cons r rest ih =>
    intro st k hk
    simp only [import_rows]
    split
    · exact ih _ k hk
    · rename_i hnm
      rw [ih _ k (List.mem_append_left _ hk)]
      have hne : (r.parkeer_id == k) = false := by
        rw [beq_eq_false_iff_ne]
        intro he
        exact hnm (he ▸ hk)
      simp [List.countP_append, List.countP_cons, hne]

/-- C9 (confirmed): in a run started with no seen ids, containing a record
`a` whose id has no earlier occurrence and a later record `b` with the same
id, the batch processes `a` into the spot output, emits exactly one spot row
with that id, and reports the id of `b` in the duplicates list; `import_rows` is
a total function, so the duplicate is never fatal to the run. -/
theorem import_data_dedup (pre mid post : List Record) (a b : Record)
    (hid : b.parkeer_id = a.parkeer_id)
    (hfresh : a.parkeer_id ∉ pre.map Record.parkeer_id) :
    (a, dominant_soort a) ∈ (import_data (pre ++ a :: (mid ++ b :: post)) []).parkeervakken ∧
    ((import_data (pre ++ a :: (mid ++ b :: post)) []).parkeervakken.countP
        fun p => p.1.parkeer_id == a.parkeer_id) = 1 ∧
    b.parkeer_id ∈ (import_data (pre ++ a :: (mid ++ b :: post)) []).duplicates := by
  have hdecomp : import_data (pre ++ a :: (mid ++ b :: post)) [] =
      import_rows (a :: (mid ++ b :: post))
        (import_rows pre { ids := [], duplicates := [], parkeervakken := [], regimes := [] }) := by
    unfold import_data
    rw [import_rows_append]
  have han : a.parkeer_id ∉
      (import_rows pre { ids := [], duplicates := [], parkeervakken := [], regimes := [] }).ids := by
    intro hmem
    rcases import_rows_ids_sub pre _ _ hmem with h | h
    · simp at h
    · exact hfresh h
  have hstep_a : import_rows (a :: (mid ++ b :: post))
      (import_rows pre { ids := [], duplicates := [], parkeervakken := [], regimes := [] }) =
      import_rows (mid ++ b :: post)
        { ids := (import_rows pre
              { ids := [], duplicates := [], parkeervakken := [], regimes := [] }).ids
              ++ [a.parkeer_id]
          duplicates := (import_rows pre
              { ids := [], duplicates := [], parkeervakken := [], regimes := [] }).duplicates
          parkeervakken := (import_rows pre
              { ids := [], duplicates := [], parkeervakken := [], regimes := [] }).parkeervakken
              ++ [(a, dominant_soort a)]
          regimes := (import_rows pre
              { ids := [], duplicates := [], parkeervakken := [], regimes := [] }).regimes
              ++ create_regimes a } := by
    simp only [import_rows]
    rw [if_neg han]
  generalize hst1 : import_rows pre
      { ids := [], duplicates := [], parkeervakken := [], regimes := [] } = st1 at *
  have hcount1 : (st1.parkeervakken.countP fun p => p.1.parkeer_id == a.parkeer_id) = 0 := by
    rw [List.countP_eq_zero]
    intro p hp
    have hin : p.1.parkeer_id ∈ st1.ids := by
      have := import_rows_pv_ids pre
        { ids := [], duplicates := [], parkeervakken := [], regimes := [] }
        (by intro p hp; simp at hp) p (by rw [hst1]; exact hp)
      rwa [hst1] at this
    intro hbeq
    exact han ((eq_of_beq hbeq) ▸ hin)
  set st2 : ImportState :=
      { ids := st1.ids ++ [a.parkeer_id]
        duplicates := st1.duplicates
        parkeervakken := st1.parkeervakken ++ [(a, dominant_soort a)]
        regimes := st1.regimes ++ create_regimes a } with hst2
  have ha_ids : a.parkeer_id ∈ st2.ids := by simp [hst2]
  have ha_pv : (a, dominant_soort a) ∈ st2.parkeervakken := by simp [hst2]
  have hcount2 : (st2.parkeervakken.countP fun p => p.1.parkeer_id == a.parkeer_id) = 1 := by
    simp [hst2, List.countP_append, List.countP_cons, hcount1]
  have hmid : import_rows (mid ++ b :: post) st2 =
      import_rows (b :: post) (import_rows mid st2) := import_rows_append mid _ st2
  generalize hst3 : import_rows mid st2 = st3 at hmid
  have ha_ids3 : a.parkeer_id ∈ st3.ids := by
    rw [← hst3]
    exact import_rows_ids_mono mid st2 _ ha_ids
  have ha_pv3 : (a, dominant_soort a) ∈ st3.parkeervakken := by
    rw [← hst3]
    exact import_rows_pv_mono mid st2 _ ha_pv
  have hcount3 : (st3.parkeervakken.countP fun p => p.1.parkeer_id == a.parkeer_id) = 1 := by
    rw [← hst3, import_rows_countP_frozen mid st2 _ ha_ids, hcount2]
  have hb_seen : b.parkeer_id ∈ st3.ids := by
    rw [hid]
    exact ha_ids3
  set st4 : ImportState := { st3 with duplicates := st3.duplicates ++ [b.parkeer_id] }
    with hst4
  have hstep_b : import_rows (b :: post) st3 = import_rows post st4 := by
    simp only [import_rows]
    rw [if_pos hb_seen]
  have ha_ids4 : a.parkeer_id ∈ st4.ids := ha_ids3
  rw [hdecomp, hstep_a, hmid, hstep_b]
  refine ⟨?_, ?_, ?_⟩
  · exact import_rows_pv_mono post st4 _ ha_pv3
  · rw [import_rows_countP_frozen post st4 _ ha_ids4]
    exact hcount3
  · refine import_rows_dups_mono post st4 _ ?_
    rw [hst4]
    simp

/-- C9 witness: a two-record stream with the same id 9; the first record is
processed, the spot output holds exactly one row with id 9, and the second
second record is reported as a duplicate. -/
theorem c9_witness :
    (c9_row_b.parkeer_id = c9_row_a.parkeer_id ∧
     c9_row_a.parkeer_id ∉ ([] : List Record).map Record.parkeer_id) ∧
    ((c9_row_a, dominant_soort c9_row_a) ∈
        (import_data ([] ++ c9_row_a :: ([] ++ c9_row_b :: [])) []).parkeervakken ∧
     ((import_data ([] ++ c9_row_a :: ([] ++ c9_row_b :: [])) []).parkeervakken.countP
        fun p => p.1.parkeer_id == c9_row_a.parkeer_id) = 1 ∧
     c9_row_b.parkeer_id ∈
        (import_data ([] ++ c9_row_a :: ([] ++ c9_row_b :: [])) []).duplicates) :=
  ⟨⟨by decide, by decide⟩,
   import_data_dedup [] [] [] c9_row_a c9_row_b (by decide) (by decide)⟩

/-- C10 witness: Monday truthy, Tuesday present-but-false gives {ma, di}. -/
theorem c10_witness :
    truthyB c10_witness_row.ma_vr = false ∧ truthyB c10_witness_row.ma_za = false ∧
    (WEEK_DAYS.any fun day => truthyB (flagOf c10_witness_row day)) = true ∧
    days_from_row c10_witness_row =
      (WEEK_DAYS.filter fun day => (flagOf c10_witness_row day).isSome) ∧
    days_from_row c10_witness_row = ["ma", "di"] :=
  ⟨by decide, by decide, by decide,
   c10_individual_branch_uses_not_none c10_witness_row (by decide) (by decide) (by decide),
   by decide⟩

end Parkeervakken
